import Mathlib

/-!
Verification of StonksManager's task-state coordinator and
fetch-persist-cache pipeline, as a shallow embedding of the Python source
(`gateway_service/src/tasks/routes.py`, `data_service/src/fetcher.py`,
`data_service/src/worker.py`, `data_service/src/cache.py`) in Lean.

Conventions used throughout:
* The Celery job queue is modelled as a pure map from job id to the job's
  state and result payload (`AsyncResult`).
* Redis stores are modelled as maps from key to stored value; `setex` values
  carry an absolute expiry deadline, reads take a current-time parameter.
* Python dicts with a fixed key schema become structures; the result payloads
  crossing the queue boundary are kept as opaque strings.
-/

namespace Stonks

/-! ## Task coordinator (`gateway_service/src/tasks/routes.py`) -/

/-- Celery task states (`AsyncResult.state`). `successful()` is exactly
`state = SUCCESS`, `failed()` is exactly `state = FAILURE`. -/
inductive CeleryState where
  | pending
  | started
  | retry
  | success
  | failure
deriving DecidableEq, Repr

/-- `AsyncResult.state.lower()`. -/
def CeleryState.lower : CeleryState → String
  | .pending => "pending"
  | .started => "started"
  | .retry => "retry"
  | .success => "success"
  | .failure => "failure"

/-- What `celery_app.AsyncResult(job_id)` exposes: the state and the result
payload (a result value on success, the stringified exception on failure). -/
structure JobInfo where
  state : CeleryState
  result : String
deriving DecidableEq, Repr

/-- The job queue, queried by job id. -/
def JobQueue := String → JobInfo

/-- The `sub_tasks` dict of a task: `"data"` is present from creation
(`analyze` always stores it); analysis entries appear only when dispatched. -/
structure SubTasks where
  dataJob : String
  analysisJobs : List (String × String)
deriving DecidableEq, Repr

/-- One entry of the per-sub-job `results` mapping that `get_task` builds:
`{"status": ..., "result"?: ..., "error"?: ...}`. -/
structure SubResult where
  status : String
  result : Option String := none
  error : Option String := none
deriving DecidableEq, Repr

/-- The task record stored in Redis under `task:{task_id}`.
`stored_results` models whether a `results` key is present in the stored
dict: `analyze` creates the dict without one and `get_task` never adds one,
so the code keeps it `none`. -/
structure TaskMeta where
  symbol : String
  analyses : List String
  forecast_timeframe : Option String
  user_id : String
  sub_tasks : SubTasks
  status : String
  stored_results : Option (List (String × SubResult)) := none
deriving DecidableEq, Repr

/-- The task store (Redis keyed by `task:{task_id}`). -/
def TaskStore := String → Option TaskMeta

/-- The `TaskResponse` body returned by `get_task`. -/
structure TaskResponse where
  task_id : String
  symbol : String
  status : String
  results : List (String × SubResult)
deriving DecidableEq, Repr

/-- `get_task`'s observable effects: the response, the job ids looked up in
the job queue (in order), and the `setex` writes to the task store (in
order). -/
structure GetTaskOut where
  response : TaskResponse
  queried : List String
  writes : List (String × TaskMeta)
deriving DecidableEq, Repr

/-- `_task_key`. -/
def taskKey (task_id : String) : String := "task:" ++ task_id

/-- The `for analysis in meta["analyses"]` loop of `get_task` (run only when
the data sub-job succeeded). Returns the analysis entries of `results` in
iteration order, the job ids queried, and the final value of `all_done`.
Faithful to the source: a sub-job in the `failure` state records an error but
does NOT clear `all_done`; only a non-terminal state or a not-yet-dispatched
analysis clears it. -/
def analysisLoop (queue : JobQueue) (st : SubTasks) :
    List String → List (String × SubResult) × List String × Bool
  | [] => ([], [], true)
  | a :: rest =>
    match st.analysisJobs.lookup a with
    | some jid =>
      let info := queue jid
      let entry : SubResult :=
        if info.state = .success then
          { status := info.state.lower, result := some info.result }
        else if info.state = .failure then
          { status := info.state.lower, error := some info.result }
        else
          { status := info.state.lower }
      let thisDone := info.state = .success || info.state = .failure
      let r := analysisLoop queue st rest
      ((a, entry) :: r.1, jid :: r.2.1, thisDone && r.2.2)
    | none =>
      let r := analysisLoop queue st rest
      ((a, { status := "pending" }) :: r.1, r.2.1, false)

/-- `get_task(task_id)` from `routes.py`. `none` models the 404 for an
unknown or expired task id. `user_id` is the authenticated caller identity
injected by the framework; the body never consults it. -/
def getTask (store : TaskStore) (queue : JobQueue) (task_id user_id : String) :
    Option GetTaskOut :=
  match store (taskKey task_id) with
  | none => none
  | some meta =>
    let dataInfo := queue meta.sub_tasks.dataJob
    if dataInfo.state = .success then
      let dataEntry : SubResult :=
        { status := dataInfo.state.lower, result := some dataInfo.result }
      let r := analysisLoop queue meta.sub_tasks meta.analyses
      let overall := if r.2.2 then "complete" else "analyzing"
      some
        { response :=
            { task_id := task_id, symbol := meta.symbol, status := overall,
              results := ("data", dataEntry) :: r.1 }
          queried := meta.sub_tasks.dataJob :: r.2.1
          writes := [(taskKey task_id, { meta with status := overall })] }
    else if dataInfo.state = .failure then
      let overall := "failed"
      let dataEntry : SubResult :=
        { status := dataInfo.state.lower, error := some dataInfo.result }
      some
        { response :=
            { task_id := task_id, symbol := meta.symbol, status := overall,
              results := [("data", dataEntry)] }
          queried := [meta.sub_tasks.dataJob]
          writes := [(taskKey task_id, { meta with status := overall })] }
    else
      let overall := "fetching_data"
      let dataEntry : SubResult := { status := dataInfo.state.lower }
      some
        { response :=
            { task_id := task_id, symbol := meta.symbol, status := overall,
              results := [("data", dataEntry)] }
          queried := [meta.sub_tasks.dataJob]
          writes := [(taskKey task_id, { meta with status := overall })] }

/-! ## Dates

`datetime.fromtimestamp(ts, tz=utc).date()` and the `datetime.date`
ISO-8601 conversions used by the fetcher and the cache. -/

/-- A `datetime.date` value: year, month, day. -/
structure DateD where
  year : Nat
  month : Nat
  day : Nat
deriving DecidableEq, Repr

/-- The invariant Python's `datetime.date` constructor enforces
(`MINYEAR = 1`, `MAXYEAR = 9999`, calendar-valid month and day). -/
def DateD.valid (d : DateD) : Prop :=
  1 ≤ d.year ∧ d.year ≤ 9999 ∧ 1 ≤ d.month ∧ d.month ≤ 12 ∧
    1 ≤ d.day ∧ d.day ≤ 31

instance (d : DateD) : Decidable d.valid := by
  unfold DateD.valid; infer_instance

/-- A record's `date` field as the Python dict holds it: either a
`datetime.date` object or (after JSON serialization) an ISO-8601 string. -/
inductive DateVal where
  | dv (d : DateD)
  | sv (s : String)
deriving DecidableEq, Repr

/-- The decimal digit character for `n % 10`-style values. -/
def digitChar (n : Nat) : Char := Char.ofNat (48 + n)

/-- The last `k` decimal digits of `n`, zero-padded to width `k`
(the `%04d` / `%02d` fields of `date.isoformat`). -/
def padDigits : Nat → Nat → List Char
  | 0, _ => []
  | k + 1, n => padDigits k (n / 10) ++ [digitChar (n % 10)]

/-- `date.isoformat()`: `YYYY-MM-DD`. -/
def DateD.isoformat (d : DateD) : String :=
  ⟨padDigits 4 d.year ++ '-' :: (padDigits 2 d.month ++ '-' :: padDigits 2 d.day)⟩

def isDigitChar (c : Char) : Bool := 48 ≤ c.toNat && c.toNat ≤ 57

/-- Decimal value of a digit string (most significant first). -/
def parseDigits (l : List Char) : Nat :=
  l.foldl (fun a c => a * 10 + (c.toNat - 48)) 0

/-- `date.fromisoformat`: accepts exactly `YYYY-MM-DD`; `none` models the
`ValueError` raised on any other shape. -/
def DateD.fromisoformat (s : String) : Option DateD :=
  match s.data with
  | [y1, y2, y3, y4, h1, m1, m2, h2, d1, d2] =>
    if h1 = '-' && h2 = '-' && [y1, y2, y3, y4, m1, m2, d1, d2].all isDigitChar then
      some ⟨parseDigits [y1, y2, y3, y4], parseDigits [m1, m2], parseDigits [d1, d2]⟩
    else none
  | _ => none

/-- Civil date from a count of days since the Unix epoch
(the Gregorian-calendar conversion `fromtimestamp(...).date()` performs). -/
def civilFromDays (z0 : Int) : DateD :=
  let z := z0 + 719468
  let era := Int.fdiv z 146097
  let doe := (z - era * 146097).toNat
  let yoe := (doe - doe / 1460 + doe / 36524 - doe / 146096) / 365
  let doy := doe - (365 * yoe + yoe / 4 - yoe / 100)
  let mp := (5 * doy + 2) / 153
  let dd := doy - (153 * mp + 2) / 5 + 1
  let mm := if mp < 10 then mp + 3 else mp - 9
  let yy : Int := era * 400 + yoe + (if mm ≤ 2 then 1 else 0)
  { year := yy.toNat, month := mm, day := dd }

/-- `datetime.fromtimestamp(ts, tz=timezone.utc).date()`. -/
def dateOfTimestamp (ts : Int) : DateD := civilFromDays (Int.fdiv ts 86400)

/-! ## Fetcher (`data_service/src/fetcher.py`) -/

/-- Python `str.upper()` on the (ASCII) ticker strings this system handles:
uppercase every character. -/
def pyUpper (s : String) : String := ⟨s.data.map Char.toUpper⟩

/-- `round(float(x), 4)`. Prices are modelled as rationals; the
binary-float representation (and its round-half-even tie behavior) is not
modelled — no claim depends on the rounded numeric values. -/
def round4 (q : ℚ) : ℚ := (round (q * 10000) : ℚ) / 10000

/-- One OHLCV record as built by `StockDataFetcher.fetch_stock_data` (and as
stored in the cache; `open` is a Lean keyword, hence `open_`). -/
structure OhlcvRec where
  symbol : String
  date : DateVal
  open_ : ℚ
  high : ℚ
  low : ℚ
  close : ℚ
  volume : Int
deriving DecidableEq, Repr

/-- The `meta` object inside Yahoo's chart result. -/
structure RawMeta where
  longName : Option String
  shortName : Option String
  currency : Option String
deriving DecidableEq, Repr

/-- `chart["result"][0]`: the `timestamp` array and the parallel
`indicators.quote[0]` arrays (entries may be JSON `null`), plus `meta`. -/
structure Chart where
  timestamps : List Int
  opens : List (Option ℚ)
  highs : List (Option ℚ)
  lows : List (Option ℚ)
  closes : List (Option ℚ)
  volumes : List (Option Int)
  meta : RawMeta
deriving DecidableEq, Repr

/-- Python's truthiness-based `a or b` on optional strings
(`raw_meta.get("longName") or raw_meta.get("shortName")`). -/
def pyOr (a b : Option String) : Option String :=
  match a with
  | some s => if s = "" then b else some s
  | none => b

/-- The metadata dict the fetcher extracts from the chart response. -/
structure FetchedMeta where
  symbol : String
  name : Option String
  sector : Option String
  currency : Option String
deriving DecidableEq, Repr

def extractMeta (symbol : String) (rm : RawMeta) : FetchedMeta :=
  { symbol := pyUpper symbol, name := pyOr rm.longName rm.shortName,
    sector := none, currency := rm.currency }

/-- Whether all five quote fields are non-null at index `i`. -/
def allPresent (c : Chart) (i : Nat) : Bool :=
  (c.opens.getD i none).isSome && (c.highs.getD i none).isSome &&
    (c.lows.getD i none).isSome && (c.closes.getD i none).isSome &&
    (c.volumes.getD i none).isSome

/-- The record built for index `i` of the timestamp array, or `none` when the
loop's `any(... is None)` guard skips that index. -/
def recordAt (symbol : String) (c : Chart) (i : Nat) : Option OhlcvRec :=
  match c.timestamps.get? i, c.opens.getD i none, c.highs.getD i none,
      c.lows.getD i none, c.closes.getD i none, c.volumes.getD i none with
  | some ts, some o, some h, some l, some cl, some v =>
    some { symbol := pyUpper symbol, date := .dv (dateOfTimestamp ts),
           open_ := round4 o, high := round4 h, low := round4 l,
           close := round4 cl, volume := v }
  | _, _, _, _, _, _ => none

/-- The `for i, ts in enumerate(timestamps)` record-building loop. -/
def buildRecords (symbol : String) (c : Chart) : List OhlcvRec :=
  (List.range c.timestamps.length).filterMap (recordAt symbol c)

/-- What the upstream does to one attempt's request.
`ok none` models an HTTP 200 whose `chart.result` is empty or null (the
`if not result` branch); `httpErr` a `raise_for_status` error other than
429; `netErr` any other request/parse exception. -/
inductive FetchResp where
  | ok (chart : Option Chart)
  | http429
  | httpErr (code : Nat)
  | netErr
deriving DecidableEq, Repr

/-- How `fetch_stock_data` terminates. `emptyData` is the
`ValueError("No chart data...")` propagating out; `noAttempts` is the
implicit `None` return when `max_retries = 0` (loop body never runs). -/
inductive FetchOutcome where
  | ok (records : List OhlcvRec) (meta : FetchedMeta)
  | rateLimited
  | httpError (code : Nat)
  | emptyData
  | transientError
  | noAttempts
deriving DecidableEq, Repr

/-- A run of the fetch loop: its outcome, the number of loop iterations that
executed a request attempt, and the number of `time.sleep(retry_delay)`
calls performed. -/
structure FetchRun where
  outcome : FetchOutcome
  attempts : Nat
  sleeps : Nat
deriving DecidableEq, Repr

/-- The body of `for attempt in range(max_retries)`, iterating over the
remaining attempt indices. Faithful to the source's exception routing:
* HTTP 429 → retried via `continue`, re-raised on the last attempt;
* any other `HTTPError` → re-raised at once (the bare `raise` in the
  `except HTTPError` arm escapes the loop; the sibling `except Exception`
  does not catch it);
* every other exception — including the empty-result `ValueError` — lands in
  `except Exception` and is retried, re-raised only on the last attempt;
* `time.sleep` runs at the top of every attempt with `attempt > 0`. -/
def fetchSteps (responses : Nat → FetchResp) (symbol : String)
    (maxRetries : Nat) : List Nat → FetchRun
  | [] => { outcome := .noAttempts, attempts := 0, sleeps := 0 }
  | attempt :: rest =>
    let slp := if attempt > 0 then 1 else 0
    match responses attempt with
    | .ok (some chart) =>
      { outcome := .ok (buildRecords symbol chart) (extractMeta symbol chart.meta),
        attempts := 1, sleeps := slp }
    | .ok none =>
      if attempt = maxRetries - 1 then
        { outcome := .emptyData, attempts := 1, sleeps := slp }
      else
        let r := fetchSteps responses symbol maxRetries rest
        { r with attempts := r.attempts + 1, sleeps := r.sleeps + slp }
    | .http429 =>
      if attempt = maxRetries - 1 then
        { outcome := .rateLimited, attempts := 1, sleeps := slp }
      else
        let r := fetchSteps responses symbol maxRetries rest
        { r with attempts := r.attempts + 1, sleeps := r.sleeps + slp }
    | .httpErr code =>
      { outcome := .httpError code, attempts := 1, sleeps := slp }
    | .netErr =>
      if attempt = maxRetries - 1 then
        { outcome := .transientError, attempts := 1, sleeps := slp }
      else
        let r := fetchSteps responses symbol maxRetries rest
        { r with attempts := r.attempts + 1, sleeps := r.sleeps + slp }

/-- `StockDataFetcher.fetch_stock_data(symbol, max_retries, retry_delay)`.
`responses` gives the upstream's behavior on each attempt index. -/
def fetch_stock_data (responses : Nat → FetchResp) (symbol : String)
    (maxRetries : Nat := 3) : FetchRun :=
  fetchSteps responses symbol maxRetries (List.range maxRetries)

/-! ## Cache layer (`data_service/src/cache.py`) -/

/-- `settings.CACHE_TTL`'s default (seconds). -/
def CACHE_TTL : Nat := 3600

/-- `_make_key`. -/
def make_key (symbol : String) : String := "stock:" ++ pyUpper symbol ++ ":ohlcv"

/-- `_serialize_record`: copy the record, converting a `date` object in the
`date` field to its ISO string; any other value is left as is. -/
def serializeRecord (r : OhlcvRec) : OhlcvRec :=
  match r.date with
  | .dv d => { r with date := .sv d.isoformat }
  | .sv _ => r

/-- `_deserialize_record`: copy the record, parsing an ISO string in the
`date` field back to a `date` object; `none` models the `ValueError`
`date.fromisoformat` raises on a malformed string. -/
def deserializeRecord (r : OhlcvRec) : Option OhlcvRec :=
  match r.date with
  | .sv s => (DateD.fromisoformat s).map (fun d => { r with date := .dv d })
  | .dv _ => some r

/-- Redis as the cache module sees it: key → (absolute expiry deadline,
stored value). `setex key ttl v` at time `now` sets deadline `now + ttl`; a
read at or past the deadline is a miss. The JSON text encoding
(`json.dumps` / `json.loads`) is modelled as the identity on the structured
value, which is its behavior on these records. -/
def CacheStore := String → Option (Nat × List OhlcvRec)

/-- `cache_ohlcv(symbol, records)` executed at time `now` with
`settings.CACHE_TTL = ttl`. -/
def cache_ohlcv (st : CacheStore) (now ttl : Nat) (symbol : String)
    (records : List OhlcvRec) : CacheStore :=
  fun k =>
    if k = make_key symbol then some (now + ttl, records.map serializeRecord)
    else st k

/-- Outcome of `get_cached_ohlcv`: `miss` is the `None` return, `error`
models a deserialization `ValueError` propagating out. -/
inductive CacheGet where
  | miss
  | hit (records : List OhlcvRec)
  | error
deriving DecidableEq, Repr

/-- The `[_deserialize_record(r) for r in json.loads(raw)]` comprehension:
deserialize every record in order; a `ValueError` from any element aborts the
whole read (`none`). -/
def deserializeAll : List OhlcvRec → Option (List OhlcvRec)
  | [] => some []
  | r :: rest =>
    match deserializeRecord r with
    | none => none
    | some r2 => (deserializeAll rest).map (r2 :: ·)

/-- `get_cached_ohlcv(symbol)` executed at time `now`. -/
def get_cached_ohlcv (st : CacheStore) (now : Nat) (symbol : String) :
    CacheGet :=
  match st (make_key symbol) with
  | none => .miss
  | some (deadline, ser) =>
    if now < deadline then
      match deserializeAll ser with
      | some recs => .hit recs
      | none => .error
    else .miss

/-! ## Worker (`data_service/src/worker.py`) -/

/-- A `stock_meta` row (the columns the upsert writes; `created_at` is a
server default the task never touches). -/
structure MetaRow where
  name : Option String
  sector : Option String
  currency : Option String
  last_fetched : Option Int
deriving DecidableEq, Repr

/-- A `stock_prices` row keyed by (symbol, date). -/
structure PriceRow where
  open_ : ℚ
  high : ℚ
  low : ℚ
  close : ℚ
  volume : Int
deriving DecidableEq, Repr

/-- The durable PostgreSQL state. -/
structure DB where
  stock_meta : List (String × MetaRow)
  stock_prices : List ((String × DateVal) × PriceRow)
deriving DecidableEq, Repr

/-- `INSERT ... ON CONFLICT (key) DO UPDATE`: overwrite the row if the key
exists, insert it otherwise. -/
def upsert {κ α : Type} [DecidableEq κ] (l : List (κ × α)) (k : κ) (v : α) :
    List (κ × α) :=
  if l.any (fun p => p.1 = k) then
    l.map (fun p => if p.1 = k then (k, v) else p)
  else l ++ [(k, v)]

/-- The staged effect of the `StockMeta` upsert statement. -/
def upsertMeta (db : DB) (m : FetchedMeta) (now : Int) : DB :=
  { db with
    stock_meta := upsert db.stock_meta m.symbol
      ⟨m.name, m.sector, m.currency, some now⟩ }

/-- The staged effect of one `StockPrice` upsert statement. -/
def upsertPrice (db : DB) (r : OhlcvRec) : DB :=
  { db with
    stock_prices := upsert db.stock_prices (r.symbol, r.date)
      ⟨r.open_, r.high, r.low, r.close, r.volume⟩ }

/-- Which steps of one task invocation raise: the environment injects
failures into the metadata upsert, each price upsert (by index), the commit,
and the post-commit cache write. -/
structure WorkerEnv where
  responses : Nat → FetchResp
  metaFails : Bool
  priceFails : Nat → Bool
  commitFails : Bool
  cacheFails : Bool

/-- The summary dict the task returns on success. -/
structure Summary where
  symbol : String
  records_count : Nat
  meta : FetchedMeta
  status : String
deriving DecidableEq, Repr

/-- Observable result of one task invocation: the Celery-visible result
(`error` = the task raised), the durable store, and the cache. -/
structure WorkerOut where
  result : Except String Summary
  db : DB
  cache : CacheStore

/-- The `for record in records: session.execute(price_stmt)` loop, staging
each upsert in order; `none` models an exception from the `i`-th execute. -/
def stagePrices (priceFails : Nat → Bool) :
    List OhlcvRec → Nat → DB → Option DB
  | [], _, db => some db
  | r :: rest, i, db =>
    if priceFails i then none
    else stagePrices priceFails rest (i + 1) (upsertPrice db r)

/-- The Celery task `fetch_stock_data` in `worker.py`. `db` is the durable
state at entry; statements executed on the session are staged and become
durable only at `session.commit()`; any exception before the commit triggers
`session.rollback()`, leaving `db` as it was. An exception from the
post-commit cache write is caught by the same handler (its rollback is a
no-op on the already-committed transaction) and re-raised, so the task fails
while the committed rows remain. -/
def fetch_stock_data_task (env : WorkerEnv) (db : DB) (cache : CacheStore)
    (symbol : String) (now : Int) (cacheNow ttl : Nat) : WorkerOut :=
  let sym := pyUpper symbol
  match (fetch_stock_data env.responses sym).outcome with
  | .ok records fmeta =>
    if env.metaFails then ⟨.error "meta upsert failed", db, cache⟩
    else
      let staged1 := upsertMeta db fmeta now
      match stagePrices env.priceFails records 0 staged1 with
      | none => ⟨.error "price upsert failed", db, cache⟩
      | some staged2 =>
        if env.commitFails then ⟨.error "commit failed", db, cache⟩
        else if env.cacheFails then
          ⟨.error "cache write failed", staged2, cache⟩
        else
          ⟨.ok ⟨sym, records.length, fmeta, "success"⟩, staged2,
            cache_ohlcv cache cacheNow ttl sym records⟩
  | _ => ⟨.error "fetch failed", db, cache⟩

/-! ## Lemmas about the status aggregation -/

/-- The `all_done` flag is true exactly when every requested analysis has a
dispatched sub-job whose state is terminal (`success` or `failure`). -/
lemma analysisLoop_done_iff (queue : JobQueue) (st : SubTasks)
    (l : List String) :
    (analysisLoop queue st l).2.2 = true ↔
      ∀ a ∈ l, ∃ jid, st.analysisJobs.lookup a = some jid ∧
        ((queue jid).state = .success ∨ (queue jid).state = .failure) := by
  induction l with
  | nil => simp [analysisLoop]
  | cons a rest ih =>
    cases h : st.analysisJobs.lookup a with
    | none => simp [analysisLoop, h]
    | some jid => simp [analysisLoop, h, ih]

/-! ## Claim theorems -/

/-- C1 (amended): for a task whose data sub-job succeeded, `get_status`
reports overall status `complete` iff every requested analysis has a
recorded sub-job in a *terminal* state (`success` or `failure`) — not iff
every analysis reports success. Data success with zero requested analyses
gives `complete`; an analysis that is pending or not yet dispatched prevents
`complete`; a failed analysis does not. -/
theorem getTask_complete_iff_terminal (store : TaskStore) (queue : JobQueue)
    (tid uid : String) (meta : TaskMeta)
    (hmeta : store (taskKey tid) = some meta)
    (hdata : (queue meta.sub_tasks.dataJob).state = .success) :
    ((getTask store queue tid uid).map fun o => o.response.status) =
        some "complete" ↔
      ∀ a ∈ meta.analyses, ∃ jid,
        meta.sub_tasks.analysisJobs.lookup a = some jid ∧
        ((queue jid).state = .success ∨ (queue jid).state = .failure) := by
  rw [← analysisLoop_done_iff queue meta.sub_tasks meta.analyses]
  simp only [getTask, hmeta, hdata, reduceIte, Option.map_some']
  by_cases hb : (analysisLoop queue meta.sub_tasks meta.analyses).2.2 = true
  · simp [hb]
  · simp only [Bool.not_eq_true] at hb
    simp [hb]

/-- C1 witness: a data-success task with zero requested analyses is reported
`complete`. -/
def w1Meta : TaskMeta :=
  { symbol := "AAPL", analyses := [], forecast_timeframe := none,
    user_id := "u1", sub_tasks := ⟨"jd", []⟩, status := "fetching_data" }

def w1Queue : JobQueue := fun _ => ⟨.success, "ok"⟩

def w1Store : TaskStore :=
  fun k => if k = taskKey "t1" then some w1Meta else none

theorem getTask_complete_iff_terminal_witness :
    ((getTask w1Store w1Queue "t1" "u1").map fun o => o.response.status) =
      some "complete" :=
  (getTask_complete_iff_terminal w1Store w1Queue "t1" "u1" w1Meta
    (by decide) rfl).mpr (by simp [w1Meta])

/-- C1 counterexample: a task with one requested analysis whose recorded
sub-job is in the `failure` state is still reported overall `complete`,
refuting "any requested analysis that does not report success prevents
complete". -/
def c1Meta : TaskMeta :=
  { symbol := "AAPL", analyses := ["sentiment"], forecast_timeframe := none,
    user_id := "u1", sub_tasks := ⟨"jd", [("sentiment", "js")]⟩,
    status := "fetching_data" }

def c1Queue : JobQueue :=
  fun j => if j = "jd" then ⟨.success, "ok"⟩ else ⟨.failure, "boom"⟩

def c1Store : TaskStore :=
  fun k => if k = taskKey "t1" then some c1Meta else none

theorem getTask_complete_despite_failed_analysis :
    ((getTask c1Store c1Queue "t1" "u1").map fun o => o.response.status) =
        some "complete" ∧
      ((getTask c1Store c1Queue "t1" "u1").map fun o =>
          o.response.results.lookup "sentiment") =
        some (some { status := "failure", result := none,
                     error := some "boom" }) :=
  ⟨rfl, rfl⟩

/-- C3 (amended): `get_status` on an existing task performs exactly one
write to the Task store before returning, and that write persists the
original record with the recomputed overall status; the per-sub-job results
mapping is returned to the caller but is NOT part of the stored record. -/
theorem getTask_single_write (store : TaskStore) (queue : JobQueue)
    (tid uid : String) (meta : TaskMeta) (out : GetTaskOut)
    (hmeta : store (taskKey tid) = some meta)
    (hout : getTask store queue tid uid = some out) :
    out.writes =
        [(taskKey tid, { meta with status := out.response.status })] ∧
      (out.writes.map fun w => w.2.stored_results) = [meta.stored_results] := by
  simp only [getTask, hmeta] at hout
  by_cases h1 : (queue meta.sub_tasks.dataJob).state = .success
  · rw [if_pos h1] at hout
    simp only [Option.some.injEq] at hout
    subst hout
    exact ⟨rfl, rfl⟩
  · by_cases h2 : (queue meta.sub_tasks.dataJob).state = .failure
    · rw [if_neg h1, if_pos h2] at hout
      simp only [Option.some.injEq] at hout
      subst hout
      exact ⟨rfl, rfl⟩
    · rw [if_neg h1, if_neg h2] at hout
      simp only [Option.some.injEq] at hout
      subst hout
      exact ⟨rfl, rfl⟩

/-- The output `get_task` produces on the `c1` scenario. -/
def w3Out : GetTaskOut :=
  { response :=
      { task_id := "t1", symbol := "AAPL", status := "complete",
        results := [("data", { status := "success", result := some "ok" }),
                    ("sentiment", { status := "failure", error := some "boom" })] }
    queried := ["jd", "js"]
    writes := [(taskKey "t1", { c1Meta with status := "complete" })] }

/-- C3 witness. -/
theorem getTask_single_write_witness :
    w3Out.writes =
        [(taskKey "t1", { c1Meta with status := w3Out.response.status })] ∧
      (w3Out.writes.map fun w => w.2.stored_results) =
        [c1Meta.stored_results] :=
  getTask_single_write c1Store c1Queue "t1" "u1" c1Meta w3Out
    (by decide) (by decide)

/-- C3 counterexample: after a `get_status` call whose response carries a
two-entry results mapping, the single stored record carries no results
mapping at all — the stored Task does not contain the results the call
returns. -/
theorem getTask_results_not_persisted :
    ((getTask c1Store c1Queue "t1" "u1").map fun o =>
        ((o.writes.map fun w => w.2.stored_results), o.response.results.length)) =
      some ([none], 2) :=
  rfl

/-- C4: if the data sub-job reports failure, `get_status` returns overall
status `failed` with the data job's error string in the results, writes that
status back, and queries no analysis sub-job (the only Job Queue lookup is
the data job's). -/
theorem getTask_data_failed_no_analysis_query (store : TaskStore)
    (queue : JobQueue) (tid uid : String) (meta : TaskMeta)
    (hmeta : store (taskKey tid) = some meta)
    (hfail : (queue meta.sub_tasks.dataJob).state = .failure) :
    getTask store queue tid uid = some
      { response :=
          { task_id := tid, symbol := meta.symbol, status := "failed",
            results := [("data",
              { status := "failure", result := none,
                error := some (queue meta.sub_tasks.dataJob).result })] }
        queried := [meta.sub_tasks.dataJob]
        writes := [(taskKey tid, { meta with status := "failed" })] } := by
  simp [getTask, hmeta, hfail, CeleryState.lower]

/-- C4 witness. -/
def w4Meta : TaskMeta :=
  { symbol := "TSLA", analyses := ["technical"], forecast_timeframe := none,
    user_id := "u2", sub_tasks := ⟨"jd4", [("technical", "jt4")]⟩,
    status := "fetching_data" }

def w4Queue : JobQueue :=
  fun j => if j = "jd4" then ⟨.failure, "boom"⟩ else ⟨.success, "ok"⟩

def w4Store : TaskStore :=
  fun k => if k = taskKey "t4" then some w4Meta else none

theorem getTask_data_failed_no_analysis_query_witness :
    getTask w4Store w4Queue "t4" "u2" = some
      { response :=
          { task_id := "t4", symbol := "TSLA", status := "failed",
            results := [("data",
              { status := "failure", result := none, error := some "boom" })] }
        queried := ["jd4"]
        writes := [(taskKey "t4", { w4Meta with status := "failed" })] } :=
  getTask_data_failed_no_analysis_query w4Store w4Queue "t4" "u2" w4Meta
    (by decide) (by decide)

/-- C9: `get_status` never consults the caller identity — for an existing
task, two different authenticated callers receive identical aggregated
views (response, queries, and writes). -/
theorem getTask_requester_independent (store : TaskStore) (queue : JobQueue)
    (tid : String) (meta : TaskMeta) (u1 u2 : String)
    (_hmeta : store (taskKey tid) = some meta) :
    getTask store queue tid u1 = getTask store queue tid u2 := rfl

/-- C9 witness: the task's own requester and a stranger see the same view. -/
theorem getTask_requester_independent_witness :
    getTask c1Store c1Queue "t1" "u1" = getTask c1Store c1Queue "t1" "attacker" :=
  getTask_requester_independent c1Store c1Queue "t1" c1Meta "u1" "attacker"
    (by decide)

/-- C7: with `max_retries = 3` and the upstream rate-limiting every attempt,
the loop performs exactly three attempts (with the two inter-attempt sleeps)
and terminates with the rate-limit failure propagating. -/
theorem fetch_rate_limited_cap (responses : Nat → FetchResp) (symbol : String)
    (h : ∀ i < 3, responses i = .http429) :
    fetch_stock_data responses symbol 3 =
      { outcome := .rateLimited, attempts := 3, sleeps := 2 } := by
  have h0 := h 0 (by norm_num)
  have h1 := h 1 (by norm_num)
  have h2 := h 2 (by norm_num)
  show fetchSteps responses symbol 3 (List.range 3) = _
  rw [show List.range 3 = [0, 1, 2] from rfl]
  simp [fetchSteps, h0, h1, h2]

/-- C7 witness. -/
theorem fetch_rate_limited_cap_witness :
    fetch_stock_data (fun _ => FetchResp.http429) "AAPL" 3 =
      { outcome := .rateLimited, attempts := 3, sleeps := 2 } :=
  fetch_rate_limited_cap (fun _ => FetchResp.http429) "AAPL" (fun _ _ => rfl)

/-- The fetch loop over the remaining attempt indices `a, a+1, …, n-1` when
every attempt yields a definitively empty result: the empty-result
`ValueError` lands in the generic `except Exception` arm, so it is retried
(with a sleep before each attempt after the first) and only the final
attempt's exception propagates. -/
lemma fetchSteps_cons_empty_last (responses : Nat → FetchResp)
    (symbol : String) (n a : Nat) (rest : List Nat)
    (hra : responses a = .ok none) (hlast : a = n - 1) :
    fetchSteps responses symbol n (a :: rest) =
      { outcome := .emptyData, attempts := 1,
        sleeps := if a > 0 then 1 else 0 } := by
  simp only [fetchSteps, hra]
  rw [if_pos hlast]

lemma fetchSteps_cons_empty_not_last (responses : Nat → FetchResp)
    (symbol : String) (n a : Nat) (rest : List Nat)
    (hra : responses a = .ok none) (hne : ¬(a = n - 1)) :
    fetchSteps responses symbol n (a :: rest) =
      { outcome := (fetchSteps responses symbol n rest).outcome,
        attempts := (fetchSteps responses symbol n rest).attempts + 1,
        sleeps := (fetchSteps responses symbol n rest).sleeps +
          if a > 0 then 1 else 0 } := by
  simp only [fetchSteps, hra]
  rw [if_neg hne]

lemma fetchSteps_empty_range' (responses : Nat → FetchResp) (symbol : String)
    (n : Nat) :
    ∀ k a, a + k = n → 1 ≤ k → (∀ i < n, responses i = .ok none) →
      fetchSteps responses symbol n (List.range' a k) =
        { outcome := .emptyData, attempts := k,
          sleeps := if a = 0 then k - 1 else k } := by
  intro k
  induction k with
  | zero => omega
  | succ k ih =>
    intro a hak _ hresp
    have ha_lt : a < n := by omega
    have hra := hresp a ha_lt
    rw [List.range'_succ]
    cases k with
    | zero =>
      have hlast : a = n - 1 := by omega
      rw [fetchSteps_cons_empty_last responses symbol n a _ hra hlast]
      simp only [FetchRun.mk.injEq, true_and]
      rcases Nat.eq_zero_or_pos a with h0 | h0
      · subst h0; norm_num
      · rw [if_pos h0, if_neg (by omega : ¬(a = 0))]
    | succ k' =>
      have hne : ¬(a = n - 1) := by omega
      rw [fetchSteps_cons_empty_not_last responses symbol n a _ hra hne,
        ih (a + 1) (by omega) (by omega) hresp]
      simp only [FetchRun.mk.injEq, true_and]
      rcases Nat.eq_zero_or_pos a with h0 | h0
      · subst h0; norm_num
      · rw [if_neg (by omega : ¬(a + 1 = 0)), if_pos h0,
          if_neg (by omega : ¬(a = 0))]

/-- C2 (amended): a definitively empty upstream result is NOT failed
immediately — it is treated like any transient error: each attempt that sees
it is retried after the fixed delay, up to the attempt cap, and only after
the final attempt does the empty-result failure propagate as the terminal
error. With `max_retries = n ≥ 1` the loop runs all `n` attempts and sleeps
`n - 1` times. -/
theorem fetch_empty_retries_to_cap (responses : Nat → FetchResp)
    (symbol : String) (n : Nat) (hn : 1 ≤ n)
    (h : ∀ i < n, responses i = .ok none) :
    fetch_stock_data responses symbol n =
      { outcome := .emptyData, attempts := n, sleeps := n - 1 } := by
  show fetchSteps responses symbol n (List.range n) = _
  rw [List.range_eq_range' n]
  have := fetchSteps_empty_range' responses symbol n n 0 (by omega) hn h
  simpa using this

/-- C2 witness. -/
theorem fetch_empty_retries_to_cap_witness :
    fetch_stock_data (fun _ => FetchResp.ok none) "MSFT" 3 =
      { outcome := .emptyData, attempts := 3, sleeps := 2 } :=
  fetch_empty_retries_to_cap (fun _ => FetchResp.ok none) "MSFT" 3
    (by norm_num) (fun _ _ => rfl)

/-- C2 counterexample: with the default `max_retries = 3` and the upstream
returning an empty chart on every attempt, the operation performs three
attempts and two inter-attempt sleeps before failing — not a first-attempt
terminal failure with no retry and no delay. -/
theorem fetch_empty_is_retried :
    fetch_stock_data (fun _ => FetchResp.ok none) "AAPL" 3 =
        { outcome := .emptyData, attempts := 3, sleeps := 2 } ∧
      (fetch_stock_data (fun _ => FetchResp.ok none) "AAPL" 3).attempts ≠ 1 ∧
      (fetch_stock_data (fun _ => FetchResp.ok none) "AAPL" 3).sleeps ≠ 0 :=
  ⟨rfl, by decide, by decide⟩

/-! ## Lemmas about record building -/

lemma length_filterMap_eq_countP {α β : Type} (f : α → Option β)
    (l : List α) :
    (l.filterMap f).length = l.countP fun a => (f a).isSome := by
  induction l with
  | nil => rfl
  | cons a t ih =>
    cases h : f a <;> simp [List.filterMap_cons, h, List.countP_cons, ih]

/-- Within the timestamp range, a record is built for index `i` exactly when
all five OHLCV fields are present there. -/
lemma recordAt_isSome (symbol : String) (c : Chart) (i : Nat)
    (hi : i < c.timestamps.length) :
    (recordAt symbol c i).isSome = allPresent c i := by
  unfold recordAt allPresent
  rw [List.get?_eq_get hi]
  cases h1 : c.opens.getD i none <;> cases h2 : c.highs.getD i none <;>
    cases h3 : c.lows.getD i none <;> cases h4 : c.closes.getD i none <;>
      cases h5 : c.volumes.getD i none <;> simp

/-- C6: the record set contains exactly one record per timestamp index at
which open, high, low, close and volume are all present (first conjunct);
in the scenario where every field is present everywhere except a single
null volume at index `j` among `N` timestamps, exactly `N - 1` records are
built (second conjunct). -/
theorem buildRecords_gap_filtering (symbol : String) (c : Chart) (N j : Nat)
    (hts : c.timestamps.length = N)
    (hj : j < N)
    (ho : ∀ i < N, (c.opens.getD i none).isSome = true)
    (hh : ∀ i < N, (c.highs.getD i none).isSome = true)
    (hl : ∀ i < N, (c.lows.getD i none).isSome = true)
    (hc : ∀ i < N, (c.closes.getD i none).isSome = true)
    (hv : ∀ i < N, i ≠ j → (c.volumes.getD i none).isSome = true)
    (hvj : c.volumes.getD j none = none) :
    (buildRecords symbol c).length =
        ((List.range N).countP fun i => allPresent c i) ∧
      (buildRecords symbol c).length = N - 1 := by
  have hcount : (buildRecords symbol c).length =
      (List.range N).countP fun i => allPresent c i := by
    unfold buildRecords
    rw [length_filterMap_eq_countP, hts]
    refine List.countP_congr ?_
    intro i hi
    rw [List.mem_range] at hi
    rw [recordAt_isSome symbol c i (by omega)]
  refine ⟨hcount, ?_⟩
  rw [hcount]
  have hbridge : ((List.range N).countP fun i => allPresent c i) =
      (List.range N).countP fun i => decide ¬(i = j) := by
    refine List.countP_congr ?_
    intro i hi
    rw [List.mem_range] at hi
    simp only [decide_eq_true_eq]
    constructor
    · intro hall hij
      subst hij
      unfold allPresent at hall
      rw [hvj] at hall
      simp at hall
    · intro hij
      unfold allPresent
      rw [ho i hi, hh i hi, hl i hi, hc i hi, hv i hi hij]
      rfl
  rw [hbridge]
  have hone : ((List.range N).countP fun i => decide (i = j)) = 1 := by
    have hcnt : (List.range N).count j = 1 :=
      List.count_eq_one_of_mem (List.nodup_range N) (List.mem_range.mpr hj)
    rw [← hcnt]
    unfold List.count
    refine List.countP_congr ?_
    intro i _
    simp
  have hsplit :=
    List.length_eq_countP_add_countP (fun i => decide (i = j)) (List.range N)
  rw [List.length_range, hone] at hsplit
  have hcongr : ((List.range N).countP
        fun a => decide ¬(decide (a = j)) = true) =
      (List.range N).countP fun i => decide ¬(i = j) := by
    refine List.countP_congr ?_
    intro i _
    simp
  omega

/-- C6 witness: three timestamps, one null volume at index 1, two records. -/
def w6Chart : Chart :=
  { timestamps := [86400, 172800, 259200],
    opens := [some 1, some 2, some 3], highs := [some 1, some 2, some 3],
    lows := [some 1, some 2, some 3], closes := [some 1, some 2, some 3],
    volumes := [some 10, none, some 30],
    meta := ⟨some "Apple Inc.", some "Apple", some "USD"⟩ }

theorem buildRecords_gap_filtering_witness :
    (buildRecords "aapl" w6Chart).length =
        ((List.range 3).countP fun i => allPresent w6Chart i) ∧
      (buildRecords "aapl" w6Chart).length = 3 - 1 :=
  buildRecords_gap_filtering "aapl" w6Chart 3 1 rfl (by norm_num)
    (by decide) (by decide) (by decide) (by decide) (by decide) rfl

/-- Whether the task raised (Celery records a FAILURE with the exception). -/
def isTaskFailure : Except String Summary → Bool
  | .error _ => true
  | .ok _ => false

/-- C5: if anything fails before the single commit — the fetch, the metadata
upsert, or any price upsert — the transaction is rolled back: the task
terminates as a failure and the durable store is exactly what it was at
entry (no partial writes). -/
theorem worker_prefail_rollback (env : WorkerEnv) (db : DB)
    (cache : CacheStore) (symbol : String) (now : Int) (cacheNow ttl : Nat)
    (h : (∀ records fmeta,
            (fetch_stock_data env.responses (pyUpper symbol)).outcome ≠
              .ok records fmeta) ∨
         env.metaFails = true ∨
         (∀ records fmeta,
            (fetch_stock_data env.responses (pyUpper symbol)).outcome =
              .ok records fmeta →
            stagePrices env.priceFails records 0 (upsertMeta db fmeta now) =
              none)) :
    isTaskFailure
        (fetch_stock_data_task env db cache symbol now cacheNow ttl).result =
        true ∧
      (fetch_stock_data_task env db cache symbol now cacheNow ttl).db = db := by
  unfold fetch_stock_data_task
  cases hout : (fetch_stock_data env.responses (pyUpper symbol)).outcome with
  | ok records fmeta =>
    rcases h with h | h | h
    · exact absurd hout (h records fmeta)
    · simp [hout, h, isTaskFailure]
    · have hs := h records fmeta hout
      by_cases hm : env.metaFails
      · simp [hout, hm, isTaskFailure]
      · simp [hout, hm, hs, isTaskFailure]
  | rateLimited => simp [hout, isTaskFailure]
  | httpError code => simp [hout, isTaskFailure]
  | emptyData => simp [hout, isTaskFailure]
  | transientError => simp [hout, isTaskFailure]
  | noAttempts => simp [hout, isTaskFailure]

/-- C5 witness: the metadata upsert raises; the task fails and the store is
untouched. -/
def w5Env : WorkerEnv :=
  { responses := fun _ => .ok (some w6Chart), metaFails := true,
    priceFails := fun _ => false, commitFails := false, cacheFails := false }

def w5Db : DB :=
  { stock_meta := [("AAPL", ⟨some "Apple Inc.", none, some "USD", some 0⟩)],
    stock_prices := [] }

def w5Cache : CacheStore := fun _ => none

theorem worker_prefail_rollback_witness :
    isTaskFailure
        (fetch_stock_data_task w5Env w5Db w5Cache "aapl" 0 0 3600).result =
        true ∧
      (fetch_stock_data_task w5Env w5Db w5Cache "aapl" 0 0 3600).db = w5Db :=
  worker_prefail_rollback w5Env w5Db w5Cache "aapl" 0 0 3600
    (Or.inr (Or.inl rfl))

/-! ## Lemmas about ISO-8601 date serialization -/

lemma toNat_digitChar (n : Nat) (h : n < 10) : (digitChar n).toNat = 48 + n := by
  interval_cases n <;> decide

lemma isDigitChar_digitChar (n : Nat) (h : n < 10) :
    isDigitChar (digitChar n) = true := by
  interval_cases n <;> decide

lemma isDigitChar_digitChar_mod (x : Nat) :
    isDigitChar (digitChar (x % 10)) = true :=
  isDigitChar_digitChar _ (Nat.mod_lt _ (by norm_num))

lemma padDigits4_eq (y : Nat) :
    padDigits 4 y = [digitChar (y / 1000 % 10), digitChar (y / 100 % 10),
      digitChar (y / 10 % 10), digitChar (y % 10)] := by
  norm_num [padDigits, Nat.div_div_eq_div_mul]

lemma padDigits2_eq (m : Nat) :
    padDigits 2 m = [digitChar (m / 10 % 10), digitChar (m % 10)] := by
  norm_num [padDigits]

lemma parseDigits4 (y : Nat) (h : y < 10000) :
    parseDigits [digitChar (y / 1000 % 10), digitChar (y / 100 % 10),
      digitChar (y / 10 % 10), digitChar (y % 10)] = y := by
  unfold parseDigits
  simp only [List.foldl_cons, List.foldl_nil]
  rw [toNat_digitChar _ (Nat.mod_lt _ (by norm_num)),
    toNat_digitChar _ (Nat.mod_lt _ (by norm_num)),
    toNat_digitChar _ (Nat.mod_lt _ (by norm_num)),
    toNat_digitChar _ (Nat.mod_lt _ (by norm_num))]
  omega

lemma parseDigits2 (m : Nat) (h : m < 100) :
    parseDigits [digitChar (m / 10 % 10), digitChar (m % 10)] = m := by
  unfold parseDigits
  simp only [List.foldl_cons, List.foldl_nil]
  rw [toNat_digitChar _ (Nat.mod_lt _ (by norm_num)),
    toNat_digitChar _ (Nat.mod_lt _ (by norm_num))]
  omega

lemma isoformat_mk (y m dd : Nat) :
    DateD.isoformat ⟨y, m, dd⟩ =
      ⟨[digitChar (y / 1000 % 10), digitChar (y / 100 % 10),
        digitChar (y / 10 % 10), digitChar (y % 10), '-',
        digitChar (m / 10 % 10), digitChar (m % 10), '-',
        digitChar (dd / 10 % 10), digitChar (dd % 10)]⟩ := by
  unfold DateD.isoformat
  rw [padDigits4_eq, padDigits2_eq, padDigits2_eq]
  rfl

lemma fromisoformat_cons10 (y1 y2 y3 y4 h1 m1 m2 h2 d1 d2 : Char) :
    DateD.fromisoformat ⟨[y1, y2, y3, y4, h1, m1, m2, h2, d1, d2]⟩ =
      if h1 = '-' && h2 = '-' &&
          [y1, y2, y3, y4, m1, m2, d1, d2].all isDigitChar then
        some ⟨parseDigits [y1, y2, y3, y4], parseDigits [m1, m2],
          parseDigits [d1, d2]⟩
      else none := rfl

/-- `date.fromisoformat(d.isoformat())` returns `d` for every real date. -/
lemma fromisoformat_isoformat (d : DateD) (h : d.valid) :
    DateD.fromisoformat d.isoformat = some d := by
  obtain ⟨y, m, dd⟩ := d
  have h' : 1 ≤ y ∧ y ≤ 9999 ∧ 1 ≤ m ∧ m ≤ 12 ∧ 1 ≤ dd ∧ dd ≤ 31 := h
  obtain ⟨hy1, hy2, hm1, hm2, hd1, hd2⟩ := h'
  rw [isoformat_mk, fromisoformat_cons10]
  rw [if_pos (by simp [isDigitChar_digitChar_mod])]
  rw [parseDigits4 y (by omega), parseDigits2 m (by omega),
    parseDigits2 dd (by omega)]

/-- Deserialization inverts serialization on a record whose `date` field
holds a real date value. -/
lemma deserialize_serialize (r : OhlcvRec) (d : DateD) (hdate : r.date = .dv d)
    (hval : d.valid) : deserializeRecord (serializeRecord r) = some r := by
  unfold serializeRecord deserializeRecord
  rw [hdate]
  simp only [fromisoformat_isoformat d hval, Option.map_some']
  rw [← hdate]

lemma deserializeAll_serialized (records : List OhlcvRec)
    (h : ∀ r ∈ records, ∃ d, r.date = .dv d ∧ d.valid) :
    deserializeAll (records.map serializeRecord) = some records := by
  induction records with
  | nil => rfl
  | cons r rest ih =>
    obtain ⟨d, hd, hv⟩ := h r (by simp)
    simp [deserializeAll, deserialize_serialize r d hd hv,
      ih fun x hx => h x (by simp [hx])]

/-- C8: a cache `put` followed by a `get` of the same symbol before expiry
returns exactly the original record sequence, in order, with every `date`
field restored to a date value. -/
theorem cache_roundtrip (st : CacheStore) (now ttl t : Nat) (symbol : String)
    (records : List OhlcvRec)
    (hdates : ∀ r ∈ records, ∃ d, r.date = .dv d ∧ d.valid)
    (ht : t < now + ttl) :
    get_cached_ohlcv (cache_ohlcv st now ttl symbol records) t symbol =
      .hit records := by
  unfold get_cached_ohlcv cache_ohlcv
  rw [if_pos rfl]
  simp [ht, deserializeAll_serialized records hdates]

/-- C8 witness. -/
def w8Rec : OhlcvRec :=
  { symbol := "AAPL", date := .dv ⟨2024, 3, 7⟩, open_ := 101, high := 102,
    low := 100, close := 101, volume := 5000 }

theorem cache_roundtrip_witness :
    get_cached_ohlcv (cache_ohlcv (fun _ => none) 0 3600 "AAPL" [w8Rec])
      10 "AAPL" = .hit [w8Rec] :=
  cache_roundtrip (fun _ => none) 0 3600 10 "AAPL" [w8Rec]
    (by
      intro r hr
      simp only [List.mem_singleton] at hr
      subst hr
      exact ⟨⟨2024, 3, 7⟩, rfl, by decide⟩)
    (by norm_num)

/-- C10: the cache is case-insensitive in the symbol: a `put` under `s`
followed by a `get` under any `u` with the same uppercasing, before expiry,
returns the records stored under `s`, because both derive the same key. -/
theorem cache_case_insensitive (st : CacheStore) (now ttl t : Nat)
    (s u : String) (records : List OhlcvRec)
    (hcase : pyUpper u = pyUpper s)
    (hdates : ∀ r ∈ records, ∃ d, r.date = .dv d ∧ d.valid)
    (ht : t < now + ttl) :
    get_cached_ohlcv (cache_ohlcv st now ttl s records) t u =
      .hit records := by
  have hkey : make_key u = make_key s := by
    unfold make_key
    rw [hcase]
  unfold get_cached_ohlcv cache_ohlcv
  rw [hkey, if_pos rfl]
  simp [ht, deserializeAll_serialized records hdates]

/-- C10 witness: stored as "aapl", read back as "AaPl". -/
theorem cache_case_insensitive_witness :
    get_cached_ohlcv (cache_ohlcv (fun _ => none) 0 3600 "aapl" [w8Rec])
      10 "AaPl" = .hit [w8Rec] :=
  cache_case_insensitive (fun _ => none) 0 3600 10 "aapl" "AaPl" [w8Rec]
    (by decide)
    (by
      intro r hr
      simp only [List.mem_singleton] at hr
      subst hr
      exact ⟨⟨2024, 3, 7⟩, rfl, by decide⟩)
    (by norm_num)

end Stonks
